import Mathlib

/-!
# Verification of the webhook dispatch core (`webhook.go`)

Shallow embedding of the hook-table lifecycle and dispatch pipeline of the
`webhook` service (`src/webhook.go`), together with theorems settling the
specification's claims about it.

The `hook` package (`github.com/adnanh/webhook/hook`) is an external
collaborator whose source is not part of this repository's files; its
capabilities (`Match`, `LoadFromFile`, `TriggerRule.Evaluate`,
`ExtractCommandArguments`, `ParseJSONParameters`) are modelled from the
specification's description of those interfaces, and each such definition is
marked `Modelled from the spec:` in its doc comment.  Everything else is
translated directly from `webhook.go`.
-/

namespace Webhook

/-- Model of Go's `interface{}` values as they arise from JSON / form decoding
into `map[string]interface{}` (with `decoder.UseNumber()`, numbers arrive as
`json.Number`, i.e. their source string). -/
inductive GoValue where
  | str : String → GoValue
  | num : String → GoValue
  | bool : Bool → GoValue
  | null : GoValue
  | arr : List GoValue → GoValue
  | obj : List (String × GoValue) → GoValue

/-- Model of Go's `map[string]interface{}`: an association list with the keys
understood to be distinct (Go maps cannot repeat a key). -/
abbrev Ctx := List (String × GoValue)

/-- Model of Go's `map[string][]string` (`http.Header`, `url.Values`). -/
abbrev MultiMap := List (String × List String)

/-- Modelled from the spec: the trigger rule is an opaque predicate capability,
`Evaluate(headers, query, payload, rawBody) -> bool`. -/
structure TriggerRule where
  Evaluate : Ctx → Ctx → Ctx → String → Bool

/-- A hook definition (spec §3).  `ExtractCommandArguments` is the external
argument-extraction capability, modelled from the spec as
`ExtractArguments(hook, headers, query, payload) -> sequence of string`. -/
structure Hook where
  ID : String
  ExecuteCommand : String
  CommandWorkingDirectory : String
  ResponseMessage : String
  TriggerRule : Option TriggerRule
  ExtractCommandArguments : Ctx → Ctx → Ctx → List String

/-- Type `hook.Hooks`: an ordered sequence of hook definitions. -/
abbrev Hooks := List Hook

/-- Modelled from the spec: `Hooks.Match (id)` looks the identifier up in the
published table with first-match semantics ("lookup by `id`, first match
semantics", spec §3); the `hook` package implementing it is not among this
repository's source files. -/
def Hooks.Match (hooks : Hooks) (id : String) : Option Hook :=
  hooks.find? (fun h => h.ID = id)

/-- Function `valuesToMap` (webhook.go:272-282): converts a `map[string][]string` to a
`map[string]interface{}`, keeping, for each key with a non-empty value list,
the first value (`ret[key] = value[0]`); keys with empty lists are skipped. -/
def valuesToMap (values : MultiMap) : Ctx :=
  values.filterMap (fun kv =>
    match kv.2 with
    | [] => none
    | v :: _ => some (kv.1, GoValue.str v))

/-- Function `reloadHooks` (webhook.go:220-239).  `hook.Hooks.LoadFromFile` is external
to this repository; modelled from the spec as
`Load(source) -> (HookTable, error)`, its outcome is passed in as an `Except`
value.  On a load error the published table `current` is left untouched; on
success the freshly built table replaces it (`hooks = newHooks`). -/
def reloadHooks (current : Hooks) (loadResult : Except String Hooks) : Hooks :=
  match loadResult with
  | Except.error _ => current
  | Except.ok newHooks => newHooks

/-- Constant `fsnotify.Write` (bit 1 of the fsnotify v1 `Op` bitmask). -/
def fsnotifyWrite : Nat := 2

/-- Constant `syscall.SIGUSR1` on Linux. -/
def sigUSR1 : Nat := 10

/-- One input consumed by the file-watcher loop `watchForFileChange`
(webhook.go:241-254): either a filesystem event carrying its `Op` bitmask, or
a watcher error. -/
inductive WatchInput where
  | event : Nat → WatchInput
  | error : String → WatchInput

/-- One iteration of `watchForFileChange` (webhook.go:241-254): a write event
(`event.Op & fsnotify.Write == fsnotify.Write`) invokes `reloadHooks`; any
other event, and any watcher error, leaves the published table alone. -/
def watchForFileChangeStep (inp : WatchInput) (current : Hooks)
    (loadResult : Except String Hooks) : Hooks :=
  match inp with
  | WatchInput.event op =>
      if Nat.land op fsnotifyWrite = fsnotifyWrite then
        reloadHooks current loadResult
      else
        current
  | WatchInput.error _ => current

/-- One iteration of `watchForSignals` (webhook.go:256-269): `SIGUSR1` invokes
`reloadHooks`; any other signal is logged and leaves the table alone. -/
def watchForSignalsStep (sig : Nat) (current : Hooks)
    (loadResult : Except String Hooks) : Hooks :=
  if sig = sigUSR1 then reloadHooks current loadResult else current

/-- Is `c` one of Go's `fmt` directive flag characters. -/
def isFmtFlag (c : Char) : Bool :=
  c = '+' || c = '-' || c = '#' || c = ' ' || c = '0'

/-- State of the `fmt` format scanner: copying plain text, or inside a `%`
directive (skipping flags / width / precision until the verb). -/
inductive FmtState where
  | plain : FmtState
  | inVerb : FmtState

/-- Scanner for `goFormatNoArgs`. -/
def goFormatNoArgsAux : FmtState → List Char → String
  | FmtState.plain, [] => ""
  | FmtState.plain, c :: rest =>
      if c = '%' then goFormatNoArgsAux FmtState.inVerb rest
      else String.mk [c] ++ goFormatNoArgsAux FmtState.plain rest
  | FmtState.inVerb, [] => "%!(NOVERB)"
  | FmtState.inVerb, c :: rest =>
      if isFmtFlag c || c.isDigit || c = '.' then
        goFormatNoArgsAux FmtState.inVerb rest
      else if c = '%' then
        "%" ++ goFormatNoArgsAux FmtState.plain rest
      else
        "%!" ++ String.mk [c] ++ "(MISSING)" ++ goFormatNoArgsAux FmtState.plain rest

/-- Model of Go's `fmt.Fprintf(w, format)` called with NO variadic operands,
as on webhook.go:190 (`fmt.Fprintf(w, hook.ResponseMessage)`): text without
`%` is copied verbatim, `%%` emits `%`, a directive whose verb has no operand
emits `%!v(MISSING)`, and a `%` at end of format emits `%!(NOVERB)` (Go `fmt`
package, "format errors"). -/
def goFormatNoArgs (format : String) : String :=
  goFormatNoArgsAux FmtState.plain format.data

/-- Capabilities of the Go standard library consumed by `hookHandler`,
treated as external collaborators: JSON decoding of a value / of a top-level
object (`encoding/json`), and form decoding (`url.ParseQuery`).  `none`
models a decode error. -/
structure GoStdlib where
  jsonDecodeValue : String → Option GoValue
  jsonDecodeObject : String → Option Ctx
  parseQuery : String → Option MultiMap

/-- Modelled from the spec: `hook.ParseJSONParameters` "converts any string
value that is valid JSON into its decoded form in place" (spec §3) in each of
the headers / query / payload maps; the `hook` package implementing it is not
among this repository's source files. -/
def parseJSONParameters (env : GoStdlib) (m : Ctx) : Ctx :=
  m.map (fun kv =>
    match kv.2 with
    | GoValue.str s =>
        match env.jsonDecodeValue s with
        | some v => (kv.1, v)
        | none => kv
    | _ => kv)

/-- Model of Go's `strings.HasPrefix` (webhook.go:166 and 175): does `s`
start with `pre`. -/
def strStarts (s pre : String) : Bool :=
  List.isPrefixOf pre.data s.data

/-- Model of Go's `http.Header.Get`: first value stored under the key, or the
empty string.  (Keys in `r.Header` are already in canonical form.) -/
def headerGet (h : MultiMap) (key : String) : String :=
  match h.find? (fun kv => kv.1 = key) with
  | some (_, v :: _) => v
  | _ => ""

/-- An incoming HTTP request as `hookHandler` sees it: the path identifier
extracted by the router (`mux.Vars(r)["id"]`), the header and query
multi-maps, and the raw body (`ioutil.ReadAll(r.Body)`). -/
structure Request where
  id : String
  headerMap : MultiMap
  queryMap : MultiMap
  body : String

/-- The data handed off to the asynchronous `handleHook` goroutine on
webhook.go:187: the matched hook and the normalized request context. -/
structure Dispatched where
  hook : Hook
  headers : Ctx
  query : Ctx
  payload : Ctx
  body : String

/-- Observable outcome of `hookHandler` for one request: the HTTP status and
body written to the response, and the handoff to `handleHook` (`none` when no
goroutine is spawned). -/
structure HandlerResult where
  status : Nat
  body : String
  dispatched : Option Dispatched

/-- Function `hookHandler` (webhook.go:142-195).  Looks the path identifier up in the
published table; on a match it builds the normalized context (headers and
query collapsed by `valuesToMap`, the body decoded as JSON or form data
according to the `Content-Type` prefix, decode errors leaving `payload` nil),
applies `ParseJSONParameters`, hands off to `handleHook` asynchronously and
writes the hook's response message through `fmt.Fprintf` (status 200); on no
match it writes status 404 with body "Hook not found.". -/
def hookHandler (env : GoStdlib) (hooks : Hooks) (r : Request) : HandlerResult :=
  match Hooks.Match hooks r.id with
  | some hook =>
      let headers := valuesToMap r.headerMap
      let query := valuesToMap r.queryMap
      let contentType := headerGet r.headerMap "Content-Type"
      let payload : Ctx :=
        if strStarts contentType "application/json" then
          match env.jsonDecodeObject r.body with
          | some p => p
          | none => []
        else if strStarts contentType "application/x-www-form-urlencoded" then
          match env.parseQuery r.body with
          | some fd => valuesToMap fd
          | none => []
        else []
      let headers := parseJSONParameters env headers
      let query := parseJSONParameters env query
      let payload := parseJSONParameters env payload
      { status := 200
        body := goFormatNoArgs hook.ResponseMessage
        dispatched := some ⟨hook, headers, query, payload, r.body⟩ }
  | none =>
      { status := 404, body := "Hook not found.", dispatched := none }

/-- The externally visible effect of `exec.Command` + `cmd.Output()` in
`handleHook`: the program spawned (`cmd.Path`, named by `ExecuteCommand`),
the full argument vector `cmd.Args` it is started with, and its working
directory `cmd.Dir`. -/
structure SpawnedCommand where
  Path : String
  Args : List String
  Dir : String
  deriving DecidableEq

/-- Evaluation of an optional trigger rule, as `hook.TriggerRule.Evaluate` is
reached in `handleHook` only under a `!= nil` guard. -/
def evaluateRule : Option TriggerRule → Ctx → Ctx → Ctx → String → Bool
  | none, _, _, _, _ => false
  | some r, hs, q, p, b => r.Evaluate hs q p b

/-- Function `handleHook` (webhook.go:197-218).  If the trigger rule is nil, or present
and evaluating to true, it spawns `exec.Command(hook.ExecuteCommand)` after
overwriting `cmd.Args` with the result of `ExtractCommandArguments` and
setting `cmd.Dir`; otherwise no command is spawned.  Note that the assignment
`cmd.Args = hook.ExtractCommandArguments(...)` replaces the whole argument
vector, including the `argv[0]` slot that `exec.Command` had initialized to
the program name. -/
def handleHook (h : Hook) (headers query payload : Ctx) (body : String) :
    Option SpawnedCommand :=
  if h.TriggerRule.isNone ||
      (h.TriggerRule.isSome && evaluateRule h.TriggerRule headers query payload body) then
    some { Path := h.ExecuteCommand
           Args := h.ExtractCommandArguments headers query payload
           Dir := h.CommandWorkingDirectory }
  else
    none

/-- A concrete standard-library environment in which every body fails to
decode (used to evaluate the handler pipeline at concrete inputs). -/
def env0 : GoStdlib :=
  { jsonDecodeValue := fun _ => none
    jsonDecodeObject := fun _ => none
    parseQuery := fun _ => none }

/-- The hook of the spec's end-to-end scenario (§8.7): id "build", command
"echo", no trigger rule, and an argument-extraction capability that, per the
spec's words, extracts the query parameter "msg" into the ordered argument
sequence (for query msg=hi it returns the sequence containing "hi"). -/
def sampleHook : Hook :=
  { ID := "build"
    ExecuteCommand := "echo"
    CommandWorkingDirectory := "/tmp"
    ResponseMessage := "ok"
    TriggerRule := none
    ExtractCommandArguments := fun _ query _ =>
      match query.find? (fun kv => kv.1 = "msg") with
      | some (_, GoValue.str s) => [s]
      | _ => [] }

/-- A hook whose configured response message contains a `fmt` verb. -/
def fmtHook : Hook :=
  { ID := "fmt"
    ExecuteCommand := "true"
    CommandWorkingDirectory := "/tmp"
    ResponseMessage := "%d"
    TriggerRule := none
    ExtractCommandArguments := fun _ _ _ => [] }

/-- The normalized query context arising from the query string msg=hi. -/
def ctxMsgHi : Ctx := [("msg", GoValue.str "hi")]

/-- The request of the end-to-end scenario: path identifier "build", no
headers, query string msg=hi, empty body. -/
def reqBuild : Request :=
  { id := "build", headerMap := [], queryMap := [("msg", ["hi"])], body := "" }

/-- A matching request declaring a JSON content type whose body is not valid
JSON. -/
def reqBadJson : Request :=
  { id := "build"
    headerMap := [("Content-Type", ["application/json"])]
    queryMap := []
    body := "notjson" }

/-- A matching request for the hook whose response message holds a verb. -/
def reqFmt : Request :=
  { id := "fmt", headerMap := [], queryMap := [], body := "" }

/-- C1: if loading the definitions source fails during a reload, the table
published after the attempt is identical (same definitions, same order) to
the table before it; the swap to the freshly loaded table happens only on a
successful load. -/
theorem reloadHooks_failed_load_keeps_table (current : Hooks) :
    (∀ msg, reloadHooks current (Except.error msg) = current) ∧
    (∀ newHooks, reloadHooks current (Except.ok newHooks) = newHooks) :=
  ⟨fun _ => rfl, fun _ => rfl⟩

/-- C9: a filesystem write event on the definitions path and the SIGUSR1
reload signal invoke the identical reload routine `reloadHooks`, so for the
same definitions-source contents (the same load outcome) both channels leave
the published hook table in the same state. -/
theorem reload_channels_identical (op sig : Nat) (current : Hooks)
    (loadResult : Except String Hooks)
    (hop : Nat.land op fsnotifyWrite = fsnotifyWrite) (hsig : sig = sigUSR1) :
    watchForFileChangeStep (WatchInput.event op) current loadResult
      = reloadHooks current loadResult ∧
    watchForSignalsStep sig current loadResult
      = reloadHooks current loadResult ∧
    watchForFileChangeStep (WatchInput.event op) current loadResult
      = watchForSignalsStep sig current loadResult := by
  refine ⟨?_, ?_, ?_⟩ <;> simp [watchForFileChangeStep, watchForSignalsStep, hop, hsig]

/-- Witness for C9 at a concrete write event, the SIGUSR1 signal number, an
empty table and a failing load. -/
theorem reload_channels_identical_witness :
    watchForFileChangeStep (WatchInput.event 2) [] (Except.error "bad")
      = reloadHooks [] (Except.error "bad") ∧
    watchForSignalsStep 10 [] (Except.error "bad")
      = reloadHooks [] (Except.error "bad") ∧
    watchForFileChangeStep (WatchInput.event 2) [] (Except.error "bad")
      = watchForSignalsStep 10 [] (Except.error "bad") :=
  reload_channels_identical 2 10 [] (Except.error "bad") (by decide) (by decide)

/-- C4: the normalization function `valuesToMap` binds each key of the
multi-map to the first value of its value list; in particular the multi-map
arising from the query string a=1&a=2 normalizes to the singleton map binding
"a" to "1". -/
theorem valuesToMap_takes_first_value (values : MultiMap) :
    (∀ k vs v, (k, vs) ∈ values → vs.head? = some v →
      (k, GoValue.str v) ∈ valuesToMap values) ∧
    valuesToMap [("a", ["1", "2"])] = [("a", GoValue.str "1")] := by
  constructor
  · intro k vs v hmem hhead
    refine List.mem_filterMap.mpr ⟨(k, vs), hmem, ?_⟩
    cases vs with
    | nil => simp at hhead
    | cons x t =>
        simp only [List.head?] at hhead
        cases hhead
        rfl
  · rfl

/-- Witness for C4 at the multi-map of the query string a=1&a=2. -/
theorem valuesToMap_takes_first_value_witness :
    ("a", GoValue.str "1") ∈ valuesToMap [("a", ["1", "2"])] :=
  (valuesToMap_takes_first_value [("a", ["1", "2"])]).1 "a" ["1", "2"] "1"
    (List.mem_singleton.mpr rfl) rfl

/-- C10: every entry of the map produced by `valuesToMap` comes from an input
key whose value list is non-empty and carries that list's first value, and
every key of the output is a key of the input; consequently a key whose value
list is empty (which, Go map keys being unique, has no other entry) is
omitted, and no key absent from the input appears. -/
theorem valuesToMap_entries_sound (values : MultiMap) :
    (∀ p, p ∈ valuesToMap values →
      ∃ vs v, (p.1, vs) ∈ values ∧ vs.head? = some v ∧ p.2 = GoValue.str v) ∧
    (∀ k, k ∈ (valuesToMap values).map Prod.fst →
      ∃ vs, (k, vs) ∈ values ∧ vs ≠ []) := by
  have first : ∀ p, p ∈ valuesToMap values →
      ∃ vs v, (p.1, vs) ∈ values ∧ vs.head? = some v ∧ p.2 = GoValue.str v := by
    intro p hp
    obtain ⟨⟨k, vs⟩, hmem, heq⟩ := List.mem_filterMap.mp hp
    cases vs with
    | nil => simp at heq
    | cons x t =>
        simp only [Option.some_inj] at heq
        cases heq
        exact ⟨x :: t, x, hmem, rfl, rfl⟩
  refine ⟨first, ?_⟩
  intro k hk
  obtain ⟨p, hp, hfst⟩ := List.mem_map.mp hk
  obtain ⟨vs, v, hmem, hhead, _⟩ := first p hp
  subst hfst
  refine ⟨vs, hmem, ?_⟩
  intro hnil
  rw [hnil] at hhead
  simp at hhead

/-- Witness for C10 at the multi-map of the query string a=1&a=2. -/
theorem valuesToMap_entries_sound_witness :
    ∃ vs v, (("a", GoValue.str "1").1, vs) ∈ [("a", ["1", "2"])] ∧
      vs.head? = some v ∧ ("a", GoValue.str "1").2 = GoValue.str v :=
  (valuesToMap_entries_sound [("a", ["1", "2"])]).1 ("a", GoValue.str "1")
    (by simp [valuesToMap])

/-- C3: a request whose path identifier matches no hook in the current table
yields status 404 with body exactly "Hook not found."; no normalized context
is built and no command-execution goroutine is spawned (the handoff is
`none`). -/
theorem hookHandler_not_found (env : GoStdlib) (hooks : Hooks) (r : Request)
    (h : Hooks.Match hooks r.id = none) :
    hookHandler env hooks r
      = { status := 404, body := "Hook not found.", dispatched := none } := by
  unfold hookHandler
  rw [h]

/-- Witness for C3 at an empty table and a concrete request. -/
theorem hookHandler_not_found_witness :
    hookHandler env0 [] { id := "nope", headerMap := [], queryMap := [], body := "" }
      = { status := 404, body := "Hook not found.", dispatched := none } :=
  hookHandler_not_found env0 []
    { id := "nope", headerMap := [], queryMap := [], body := "" } rfl

/-- C6: for a matched request whose body fails to decode as JSON or as
form-urlencoded data, the payload of the normalized context handed to the
execution goroutine is left empty, and the request still proceeds: the
goroutine is spawned (handoff is `some`) and the response is the configured
success response (status 200 with the body the hook's message produces). -/
theorem hookHandler_decode_error_proceeds (env : GoStdlib) (hooks : Hooks)
    (r : Request) (hook : Hook)
    (hmatch : Hooks.Match hooks r.id = some hook)
    (hfail :
      strStarts (headerGet r.headerMap "Content-Type") "application/json" = true
          ∧ env.jsonDecodeObject r.body = none ∨
        strStarts (headerGet r.headerMap "Content-Type") "application/json" = false
          ∧ strStarts (headerGet r.headerMap "Content-Type")
              "application/x-www-form-urlencoded" = true
          ∧ env.parseQuery r.body = none) :
    hookHandler env hooks r
      = { status := 200
          body := goFormatNoArgs hook.ResponseMessage
          dispatched := some
            { hook := hook
              headers := parseJSONParameters env (valuesToMap r.headerMap)
              query := parseJSONParameters env (valuesToMap r.queryMap)
              payload := []
              body := r.body } } := by
  unfold hookHandler
  rw [hmatch]
  rcases hfail with ⟨hj, hd⟩ | ⟨hnj, hf, hd⟩
  · simp [hj, hd, parseJSONParameters]
  · simp [hnj, hf, hd, parseJSONParameters]

/-- Witness for C6 at a concrete matched request whose JSON body fails to
decode. -/
theorem hookHandler_decode_error_proceeds_witness :
    hookHandler env0 [sampleHook] reqBadJson
      = { status := 200
          body := goFormatNoArgs sampleHook.ResponseMessage
          dispatched := some
            { hook := sampleHook
              headers := parseJSONParameters env0 (valuesToMap reqBadJson.headerMap)
              query := parseJSONParameters env0 (valuesToMap reqBadJson.queryMap)
              payload := []
              body := reqBadJson.body } } :=
  hookHandler_decode_error_proceeds env0 [sampleHook] reqBadJson sampleHook rfl
    (Or.inl ⟨rfl, rfl⟩)

/-- C2 (code bug): the claim — and the spec's "returned verbatim" — require
the response body to equal the hook's responseMessage character for
character, but webhook.go:190 passes the message to `fmt.Fprintf` as the
FORMAT string, so a message containing a directive is rewritten.  At the
failing input ResponseMessage = "%d", the matched request is answered with
status 200 and body "%!d(MISSING)", which differs from the configured
message. -/
theorem responseMessage_is_format_string :
    (hookHandler env0 [fmtHook] reqFmt).status = 200 ∧
    (hookHandler env0 [fmtHook] reqFmt).body = "%!d(MISSING)" ∧
    (hookHandler env0 [fmtHook] reqFmt).body ≠ fmtHook.ResponseMessage := by
  refine ⟨rfl, rfl, by decide⟩

/-- C5: for a matched hook the execution step runs the command when the
trigger rule is absent (nil), and when a rule is present it spawns the
command if and only if the rule evaluates to true against the headers, query,
payload and raw body; otherwise no command is spawned. -/
theorem handleHook_trigger_decides (h : Hook) (headers query payload : Ctx)
    (body : String) :
    (h.TriggerRule = none → handleHook h headers query payload body ≠ none) ∧
    ∀ r, h.TriggerRule = some r →
      (handleHook h headers query payload body ≠ none ↔
        r.Evaluate headers query payload body = true) := by
  constructor
  · intro hr
    simp [handleHook, hr]
  · intro r hr
    by_cases hev : r.Evaluate headers query payload body = true
    · simp [handleHook, hr, evaluateRule, hev]
    · simp only [Bool.not_eq_true] at hev
      simp [handleHook, hr, evaluateRule, hev]

/-- Witness for C5 at a concrete hook without a trigger rule. -/
theorem handleHook_trigger_decides_witness :
    handleHook sampleHook [] [] [] "" ≠ none :=
  (handleHook_trigger_decides sampleHook [] [] [] "").1 rfl

/-- C7 (counterexample): at the end-to-end scenario — the hook of
`/hooks/build` with the capability extracting the query parameter msg, and
the request with query string msg=hi — the dispatcher hands the normalized
context over and the spawned command's argument vector is exactly the
extracted sequence containing "hi" alone; it is NOT that sequence placed
after the program name, because `cmd.Args = hook.ExtractCommandArguments(...)`
(webhook.go:202) overwrites the whole argv that `exec.Command` had seeded
with the program name. -/
theorem spawn_args_counterexample :
    (hookHandler env0 [sampleHook] reqBuild).dispatched
      = some { hook := sampleHook, headers := [], query := ctxMsgHi,
               payload := [], body := "" } ∧
    handleHook sampleHook [] ctxMsgHi [] ""
      = some { Path := "echo", Args := ["hi"], Dir := "/tmp" } ∧
    ["hi"] ≠ sampleHook.ExecuteCommand
        :: sampleHook.ExtractCommandArguments [] ctxMsgHi [] := by
  refine ⟨rfl, rfl, by decide⟩

/-- C7 (amended): for every triggered hook the spawned process is the program
named by executeCommand, its working directory is commandWorkingDirectory,
and its FULL argument vector (including the argv-0 slot) is exactly the
ordered sequence returned by the argument-extraction capability — the program
name is not additionally prepended; in the end-to-end scenario the command is
invoked with argument vector exactly ["hi"]. -/
theorem handleHook_spawn_shape (h : Hook) (headers query payload : Ctx)
    (body : String) (cmd : SpawnedCommand)
    (hs : handleHook h headers query payload body = some cmd) :
    cmd.Path = h.ExecuteCommand ∧ cmd.Dir = h.CommandWorkingDirectory ∧
    cmd.Args = h.ExtractCommandArguments headers query payload := by
  unfold handleHook at hs
  split at hs
  · injection hs with hs
    subst hs
    exact ⟨rfl, rfl, rfl⟩
  · exact Option.noConfusion hs

/-- Witness for C7's amended theorem at the scenario's hook and context. -/
theorem handleHook_spawn_shape_witness :
    SpawnedCommand.Path { Path := "echo", Args := ["hi"], Dir := "/tmp" }
        = sampleHook.ExecuteCommand ∧
    SpawnedCommand.Dir { Path := "echo", Args := ["hi"], Dir := "/tmp" }
        = sampleHook.CommandWorkingDirectory ∧
    SpawnedCommand.Args { Path := "echo", Args := ["hi"], Dir := "/tmp" }
        = sampleHook.ExtractCommandArguments [] ctxMsgHi [] :=
  handleHook_spawn_shape sampleHook [] ctxMsgHi [] ""
    { Path := "echo", Args := ["hi"], Dir := "/tmp" } rfl

end Webhook
